import Mathlib

/-!
Verification development for `standup_reminder.py` (ricardogo/sit-down-stand-up).

The Python module is embedded shallowly:
* JSON documents (the config and stats files) become the inductive type `Json`,
  with Python `dict` operations modelled on association lists;
* fallible dictionary indexing (`d[k]`, which raises `KeyError`/`TypeError`)
  becomes `Option`-valued lookup, and every operation that can raise returns
  `Option`;
* the app object's mutable fields become the record `AppState`, and each
  method becomes a state-passing function;
* notification side effects become an explicit event trace on the state.
-/

set_option maxRecDepth 4000

namespace StandUp

/-- A JSON value, as produced by `json.load`.  Numbers are modelled as
integers: every number written by the program is an `int` except the
`time.time()` timestamp, which the claims treat at integer precision. -/
inductive Json where
  | null : Json
  | b : Bool → Json
  | i : Int → Json
  | s : String → Json
  | arr : List Json → Json
  | obj : List (String × Json) → Json

/-- First-match association-list lookup (Python dict keys are unique, so the
first match is the match). -/
def jLookup {A : Type} : List (String × A) → String → Option A
  | [], _ => none
  | (k', v) :: rest, k => if k' = k then some v else jLookup rest k

/-- Python `d[k] = v`: replace the value at `k` in place, or append a fresh
key at the end (Python dicts preserve insertion order). -/
def jInsert : List (String × Json) → String → Json → List (String × Json)
  | [], k, v => [(k, v)]
  | (k', v') :: rest, k, v =>
    if k' = k then (k, v) :: rest else (k', v') :: jInsert rest k v

/-- Python `d[k]` where `d` must be a dict: `KeyError`/`TypeError` become
`none`. -/
def Json.getKey : Json → String → Option Json
  | .obj kvs, k => jLookup kvs k
  | _, _ => none

/-- Python `d.get(k, default)` where `d` must be a dict (`AttributeError` on
anything else becomes `none`). -/
def Json.getD : Json → String → Json → Option Json
  | .obj kvs, k, d => some ((jLookup kvs k).getD d)
  | _, _, _ => none

/-- Python `d[k] = v` as a whole-document update; fails on a non-dict. -/
def Json.setKey : Json → String → Json → Option Json
  | .obj kvs, k, v => some (.obj (jInsert kvs k v))
  | _, _, _ => none

/-- Python `k in d` for a dict receiver; fails on a non-dict. -/
def Json.hasKey : Json → String → Option Bool
  | .obj kvs, k => some (jLookup kvs k).isSome
  | _, _ => none

/-- Python use of a value as an `int` (arithmetic or ordering raises
`TypeError` on anything else). -/
def Json.asInt : Json → Option Int
  | .i n => some n
  | _ => none

/-! ### Stats persistence (lines 530-541) -/

/-- `load_stats` (lines 530-536).  The file system is abstracted as the
outcome of `open` + `json.load`: `none` means the file is absent
(`FileNotFoundError`) or not parseable (`json.JSONDecodeError`), in which
case the default document `{"days": {}}` is returned; a successful parse is
returned as is, without validation. -/
def load_stats (file : Option Json) : Json :=
  file.getD (.obj [("days", .obj [])])

/-! ### Stats tracker operations (lines 569-636).

Each Python method does `stats = self.load_stats()`, mutates the document,
and `self.save_stats(stats)`.  The embeddings below are the pure
document-to-document part: they take the loaded document and return the
document that `save_stats` writes, or `none` when the Python code would
raise (`KeyError` on a missing key, `TypeError` on a non-dict receiver or
non-`int` arithmetic operand). -/

/-! The Python bodies repeat four statement shapes on the loaded document;
each is embedded once and reused:
* `stats["days"][today][k] = v`            → `setDayField`
* `if today not in stats["days"]: stats["days"][today] = init` → `initDay`
* `if k not in stats["days"][today]: stats["days"][today][k] = 0` → `initDayField`
* `stats["days"][today][k] += 1`           → `incDayField`
-/

/-- `stats["days"][today][k] = v` (nested dict assignment). -/
def setDayField (today k : String) (v : Json) (stats : Json) : Option Json := do
  let days ← stats.getKey "days"
  let day ← days.getKey today
  let day2 ← day.setKey k v
  let days2 ← days.setKey today day2
  stats.setKey "days" days2

/-- `if today not in stats["days"]: stats["days"][today] = dayInit`. -/
def initDay (today : String) (dayInit : Json) (stats : Json) : Option Json := do
  let days ← stats.getKey "days"
  let hasDay ← days.hasKey today
  if hasDay then pure stats
  else do
    let days2 ← days.setKey today dayInit
    stats.setKey "days" days2

/-- `if k not in stats["days"][today]: stats["days"][today][k] = 0`. -/
def initDayField (today k : String) (stats : Json) : Option Json := do
  let days ← stats.getKey "days"
  let day ← days.getKey today
  let hasK ← day.hasKey k
  if hasK then pure stats else setDayField today k (.i 0) stats

/-- `stats["days"][today][k] += 1`. -/
def incDayField (today k : String) (stats : Json) : Option Json := do
  let days ← stats.getKey "days"
  let day ← days.getKey today
  let v ← day.getKey k
  let n ← v.asInt
  setDayField today k (.i (n + 1)) stats

/-- The fresh-day literal `{"prompts": 0, "completed": 0, "snoozed": 0}`
(lines 574 and 617). -/
def dayInitPKvs : List (String × Json) :=
  [("prompts", .i 0), ("completed", .i 0), ("snoozed", .i 0)]

def dayInitP : Json := .obj dayInitPKvs

/-- The fresh-day literal of `record_completed` (line 586), which also
zeroes `best_streak`. -/
def dayInitCKvs : List (String × Json) :=
  [("prompts", .i 0), ("completed", .i 0), ("snoozed", .i 0), ("best_streak", .i 0)]

def dayInitC : Json := .obj dayInitCKvs

/-- `record_prompt` (lines 569-579), document transformation. -/
def record_prompt (today : String) (stats : Json) : Option Json := do
  let stats ← initDay today dayInitP stats
  let stats ← initDayField today "snoozed" stats
  incDayField today "prompts" stats

/-- Lines 597-599: `if current_streak > stats["days"][today]["best_streak"]:`
update today's best streak. -/
def updateDayBest (today : String) (current_streak : Int) (stats : Json) : Option Json := do
  let days ← stats.getKey "days"
  let day ← days.getKey today
  let dbv ← day.getKey "best_streak"
  let db ← dbv.asInt
  if current_streak > db then setDayField today "best_streak" (.i current_streak) stats
  else pure stats

/-- Lines 601-603: `if current_streak > stats.get("best_streak", 0):` update
the all-time best streak. -/
def updateGlobalBest (current_streak : Int) (stats : Json) : Option Json := do
  let gbv ← stats.getD "best_streak" (.i 0)
  let gb ← gbv.asInt
  if current_streak > gb then stats.setKey "best_streak" (.i current_streak)
  else pure stats

/-- Lines 585-590 of `record_completed`: initialize today's entry and its
`snoozed`/`best_streak` fields. -/
def record_completed_init (today : String) (stats : Json) : Option Json := do
  let stats ← initDay today dayInitC stats
  let stats ← initDayField today "snoozed" stats
  initDayField today "best_streak" stats

/-- Lines 591-603 of `record_completed`: `completed += 1`, bump the streak,
and update the two best-streak values. -/
def record_completed_tail (today : String) (stats : Json) : Option Json := do
  let stats ← incDayField today "completed" stats
  let skv ← stats.getD "streak" (.i 0)
  let sk ← skv.asInt
  let stats ← stats.setKey "streak" (.i (sk + 1))
  let current_streak := sk + 1
  let stats ← updateDayBest today current_streak stats
  updateGlobalBest current_streak stats

/-- `record_completed` (lines 581-610), document transformation.  The
`pending_sitdown_response = False` assignment is modelled at the app level
(`recordCompletedApp`). -/
def record_completed (today : String) (stats : Json) : Option Json := do
  let stats ← record_completed_init today stats
  record_completed_tail today stats

/-- `record_snoozed` (lines 612-625), document transformation. -/
def record_snoozed (today : String) (stats : Json) : Option Json := do
  let stats ← initDay today dayInitP stats
  let stats ← initDayField today "snoozed" stats
  incDayField today "snoozed" stats

/-- `clear_streak` (lines 627-636), document transformation.  The
`pending_sitdown_response = False` assignment is modelled at the app
level. -/
def clear_streak (stats : Json) : Option Json :=
  stats.setKey "streak" (.i 0)

/-! ### Configuration persistence (lines 638-665) -/

/-- The interval presets, `self.intervals` (line 130). -/
def intervals : List (String × Int) :=
  [("1 minute", 1 * 60), ("30 minutes", 30 * 60), ("60 minutes", 60 * 60)]

/-- The app fields that `load_config` can change. -/
structure ConfigFields where
  current_interval : String
  work_duration : Int
  time_remaining : Int

/-- `load_config` (lines 638-652).  `file = none` is the
`FileNotFoundError/JSONDecodeError` path (`pass`, defaults kept).  A parsed
document must answer `config.get` (so a non-dict raises → `none`); the
loaded interval name is looked up in the preset table (`interval_name in
self.intervals`), which raises on an unhashable value (`arr`/`obj`) and is
simply false for any other non-string value. -/
def load_config (file : Option Json) (st : ConfigFields) : Option ConfigFields :=
  match file with
  | none => some st
  | some config => do
    let iv ← config.getD "interval" (.s "30 minutes")
    match iv with
    | .s interval_name =>
      match jLookup intervals interval_name with
      | some d =>
        pure { current_interval := interval_name, work_duration := d, time_remaining := d }
      | none => pure st
    | .arr _ => none
    | .obj _ => none
    | _ => pure st

/-- `save_config` (lines 654-665): read-merge-write.  The existing document
(or `{}` if absent/corrupt) gets `config["interval"] = self.current_interval`
and is written back; the result is the new file content. -/
def save_config (file : Option Json) (current_interval : String) : Option Json :=
  (file.getD (.obj [])).setKey "interval" (.s current_interval)

/-! ### Update checker (lines 122, 808-875) -/

/-- `UPDATE_CHECK_INTERVAL = 24 * 60 * 60` (line 122). -/
def UPDATE_CHECK_INTERVAL : Int := 24 * 60 * 60

/-- `check_for_updates_auto` (lines 808-823).  `file` is the config-file
parse outcome, `now` is `time.time()` (at integer precision) and
`checkResult` is the outcome of the remote check `_check_for_updates
(silent=True)`: that call wraps its whole body in `try/except` (lines
831-861) and with `silent=True` even the failure alert is skipped, so it
never raises and its outcome cannot influence this function — which the
result being independent of `checkResult` makes explicit.  Returns whether
the remote check was performed, and the config file afterwards. -/
def check_for_updates_auto (file : Option Json) (now : Int) (checkResult : Bool) :
    Option (Bool × Option Json) := do
  let config := file.getD (.obj [])
  let lastv ← config.getD "last_update_check" (.i 0)
  let last_check ← lastv.asInt
  if now - last_check ≥ UPDATE_CHECK_INTERVAL then do
    let _ := checkResult
    let config2 ← config.setKey "last_update_check" (.i now)
    pure (true, some config2)
  else
    pure (false, file)

/-! ### Version comparison (lines 863-875).

`_version_compare` does `v.split(".")`, `int(x)` on each component, and then
walks `range(max(len, len))` reading missing components as `0`; the first
unequal pair decides.  The split and the `int` conversion are embedded on
`List Char`; the index loop with zero padding is expressed as structural
recursion on the two component lists (each step compares the current
components, missing ones read as `0`, and recurses on the tails). -/

/-- Python `str.split(".")` for the one-character separator `"."`:
`""` ↦ `[""]`, and every separator occurrence starts a new (possibly empty)
segment. -/
def splitDot : List Char → List (List Char)
  | [] => [[]]
  | c :: cs =>
    if c = '.' then [] :: splitDot cs
    else
      match splitDot cs with
      | [] => [[c]]
      | p :: ps => (c :: p) :: ps

/-- Decimal digit value of a character, if any. -/
def digitVal (c : Char) : Option Nat :=
  if c.isDigit then some (c.toNat - 48) else none

/-- Digit-string value; `none` if empty or containing a non-digit. -/
def parseDigits (cs : List Char) : Option Nat :=
  if cs.isEmpty then none
  else cs.foldlM (fun acc c => (digitVal c).map (fun d => acc * 10 + d)) 0

/-- Python `int(x)` on a version component: an optional sign followed by
digits (`ValueError` otherwise; the surrounding-whitespace and underscore
forms Python also accepts never occur in version strings). -/
def parsePyInt : List Char → Option Int
  | [] => none
  | '-' :: rest => (parseDigits rest).map (fun n => -(n : Int))
  | '+' :: rest => (parseDigits rest).map (fun n => (n : Int))
  | cs => (parseDigits cs).map (fun n => (n : Int))

/-- Tail of the comparison loop once `v1` is exhausted: each remaining
component of `v2` is compared against the zero padding. -/
def versionComparePad : List Int → Int
  | [] => 0
  | q :: qs =>
    if (0 : Int) > q then 1 else if (0 : Int) < q then -1 else versionComparePad qs

/-- The comparison loop of `_version_compare` (lines 868-875): pad the
shorter list with zeros, first unequal component decides. -/
def versionCompareParts : List Int → List Int → Int
  | [], qs => versionComparePad qs
  | p :: ps, [] =>
    if p > 0 then 1 else if p < 0 then -1 else versionCompareParts ps []
  | p :: ps, q :: qs =>
    if p > q then 1 else if p < q then -1 else versionCompareParts ps qs

/-- `_version_compare(v1, v2)` (lines 863-875); `none` when `int()` raises
`ValueError` on a component. -/
def version_compare (v1 v2 : String) : Option Int := do
  let p1 ← (splitDot v1.data).mapM parsePyInt
  let p2 ← (splitDot v2.data).mapM parsePyInt
  pure (versionCompareParts p1 p2)


/-! ### The app state machine (lines 125-806).

The mutable fields of `StandUpApp` that the core logic touches become a
record; native UI state (menu items, titles, popovers) is presentation and
is not part of the core state.  Notification side effects are recorded in an
explicit event trace. -/

/-- `SNOOZE_DURATION = 5 * 60` (line 30). -/
def SNOOZE_DURATION : Int := 5 * 60

/-- A notification side effect delegated to the OS notification center. -/
inductive Event where
  | standupShown : Event
  | sitdownShown : Event
  deriving DecidableEq

/-- The core mutable fields of `StandUpApp` plus the stats-file content and
the event trace.  `today` is the value of `time.strftime("%Y-%m-%d")`,
constant over the short scenarios considered here. -/
structure AppState where
  work_duration : Int
  countdown_duration : Int
  time_remaining : Int
  is_countdown : Bool
  is_snooze : Bool
  is_paused : Bool
  pending_sitdown_response : Bool
  timer_running : Bool
  current_interval : String
  today : String
  stats_file : Option Json
  events : List Event

/-- The four phases of §4.1 of the spec.  The code stores no phase value;
the spec characterizes **Paused** as "suspends the tick entirely", so Paused
is the tick timer being stopped, and the other three phases are read off the
two mode flags in the priority order `update_display` uses (`is_countdown`
before `is_snooze`). -/
inductive Phase where
  | Working : Phase
  | Standing : Phase
  | Snoozed : Phase
  | Paused : Phase
  deriving DecidableEq

def AppState.phase (s : AppState) : Phase :=
  if s.timer_running = false then .Paused
  else if s.is_countdown then .Standing
  else if s.is_snooze then .Snoozed
  else .Working

/-- `show_standup_notification` (lines 329-357): reads the stats (for the
message text only) and posts the stand-up notification. -/
def show_standup_notification (s : AppState) : AppState :=
  { s with events := s.events ++ [.standupShown] }

/-- `show_sitdown_notification` (lines 359-374): sets
`pending_sitdown_response = True` and posts the sit-down notification. -/
def show_sitdown_notification (s : AppState) : AppState :=
  { s with pending_sitdown_response := true, events := s.events ++ [.sitdownShown] }

/-- `start_countdown` (lines 682-691). -/
def start_countdown (s : AppState) : AppState :=
  let s := { s with
    is_countdown := true
    is_snooze := false
    time_remaining := s.countdown_duration }
  show_standup_notification s

/-- `restart_work_timer` (lines 732-751). -/
def restart_work_timer (s : AppState) : Option AppState := do
  let s := { s with
    is_countdown := false
    is_snooze := false
    time_remaining := s.work_duration }
  let s ←
    if s.pending_sitdown_response then do
      let stats ← (load_stats s.stats_file).setKey "streak" (.i 0)
      pure { s with stats_file := some stats }
    else pure s
  let stats ← record_prompt s.today (load_stats s.stats_file)
  let s := { s with stats_file := some stats }
  pure (show_sitdown_notification s)

/-- `tick` (lines 667-680), the once-per-second timer callback.  `none`
means the callback raised (a `KeyError`/`TypeError` escaping from the stats
read-modify-write). -/
def tick (s : AppState) : Option AppState :=
  let s := { s with time_remaining := s.time_remaining - 1 }
  if s.time_remaining ≤ 0 then
    if ¬s.is_countdown then some (start_countdown s)
    else restart_work_timer s
  else some s

/-- `tick` applied `n` times. -/
def tickN : Nat → AppState → Option AppState
  | 0, s => some s
  | n + 1, s => (tick s).bind (tickN n)

/-- `snooze` (lines 697-708). -/
def snooze (s : AppState) : Option AppState := do
  let s := { s with
    is_countdown := false
    is_snooze := true
    time_remaining := SNOOZE_DURATION }
  let stats ← record_snoozed s.today (load_stats s.stats_file)
  pure { s with stats_file := some stats }

/-- `toggle_pause` (lines 710-731). -/
def toggle_pause (s : AppState) : AppState :=
  if s.is_paused then
    { s with
      is_paused := false
      is_countdown := false
      is_snooze := false
      time_remaining := s.work_duration
      timer_running := true }
  else
    { s with is_paused := true, timer_running := false }

/-- `screenDidWake_` (lines 479-487). -/
def screenDidWake_ (s : AppState) : AppState :=
  { s with
    is_countdown := false
    is_snooze := false
    time_remaining := s.work_duration
    timer_running := true }

/-- `record_completed` as invoked on the app (lines 581-610 including
`self.pending_sitdown_response = False`). -/
def recordCompletedApp (s : AppState) : Option AppState := do
  let stats ← record_completed s.today (load_stats s.stats_file)
  pure { s with stats_file := some stats, pending_sitdown_response := false }

/-- `clear_streak` as invoked on the app (lines 627-636 including
`self.pending_sitdown_response = False`). -/
def clearStreakApp (s : AppState) : Option AppState := do
  let stats ← clear_streak (load_stats s.stats_file)
  pure { s with stats_file := some stats, pending_sitdown_response := false }


/-! ### Derived accessors and well-formedness.

These definitions do not correspond to Python statements; they name the
values the claims talk about (the streak, the per-day and global best
streaks) and the well-formedness that a stats document written by the
program always has. -/

/-- Read an option as the `int` it holds, with a default — the semantics of
`d.get(k, 0)` used as a number. -/
def jIntD (o : Option Json) (d : Int) : Int :=
  match o with
  | some (.i n) => n
  | _ => d

/-- The current streak, `stats.get("streak", 0)`. -/
def skD (stats : Json) : Int := jIntD (stats.getKey "streak") 0

/-- The global best streak, `stats.get("best_streak", 0)`. -/
def gBestD (stats : Json) : Int := jIntD (stats.getKey "best_streak") 0

/-- A day entry's best streak, reading a missing key as `0`. -/
def dayBestD (day : Json) : Int := jIntD (day.getKey "best_streak") 0

/-- The per-day table of the document (empty if `days` is missing or not an
object). -/
def jDays (stats : Json) : List (String × Json) :=
  match stats.getKey "days" with
  | some (.obj ds) => ds
  | _ => []

/-- Today's entry of the per-day table. -/
def dayOf (stats : Json) (today : String) : Option Json :=
  jLookup (jDays stats) today

/-- A numeric field of today's entry, missing values read as `0`. -/
def dayFieldD (stats : Json) (today f : String) : Int :=
  jIntD ((dayOf stats today).bind (fun d => d.getKey f)) 0

/-- The optional value holds an integer. -/
def isIntOpt : Option Json → Bool
  | some (.i _) => true
  | _ => false

/-- The optional value is absent or holds an integer. -/
def isIntOrNone : Option Json → Bool
  | none => true
  | some (.i _) => true
  | _ => false

/-- Well-formedness of a day entry: what every entry the program itself
writes satisfies (`prompts` and `completed` integers, `snoozed` and
`best_streak` absent or integers). -/
def dayWF (day : Json) : Bool :=
  match day with
  | .obj dkvs =>
    isIntOpt (jLookup dkvs "prompts") && isIntOpt (jLookup dkvs "completed") &&
    isIntOrNone (jLookup dkvs "snoozed") && isIntOrNone (jLookup dkvs "best_streak")
  | _ => false

/-- Well-formedness of a stats document: a JSON object with a `days` object
of well-formed day entries, and `streak`/`best_streak` absent or integers. -/
def statsWF (stats : Json) : Bool :=
  match stats with
  | .obj kvs =>
    isIntOrNone (jLookup kvs "streak") && isIntOrNone (jLookup kvs "best_streak") &&
    (match jLookup kvs "days" with
     | some (.obj ds) => ds.all (fun kv => dayWF kv.2)
     | _ => false)
  | _ => false

/-- §3 invariant: the global best streak bounds every per-day best streak. -/
def statsInv (stats : Json) : Bool :=
  (jDays stats).all (fun kv => decide (dayBestD kv.2 ≤ gBestD stats))

/-- The four stats-tracker operations of §4.2, as one type (used to state
the invariant-preservation claim once for all of them). -/
inductive StatsOp where
  | prompt : StatsOp
  | completed : StatsOp
  | snoozed : StatsOp
  | clearStreak : StatsOp

def StatsOp.apply : StatsOp → String → Json → Option Json
  | .prompt, today, stats => record_prompt today stats
  | .completed, today, stats => record_completed today stats
  | .snoozed, today, stats => record_snoozed today stats
  | .clearStreak, _, stats => clear_streak stats

/-! ### Functional forms of the record operations.

`record_prompt`/`record_snoozed`/`record_completed` are `Option`-valued
chains of dictionary steps; on well-formed documents they are equal to the
following direct functional forms (proved below), which the claim proofs
use. -/

/-- Today's day entry after the `if ... not in ...` initializations of
`record_prompt`/`record_snoozed` (lines 573-576 / 616-619): a fresh
zeroed entry, or the existing entry with `snoozed` defaulted to `0`. -/
def canonDayP (o : Option Json) : List (String × Json) :=
  match o with
  | none => dayInitPKvs
  | some (.obj dkvs) =>
    if (jLookup dkvs "snoozed").isSome then dkvs else jInsert dkvs "snoozed" (.i 0)
  | some _ => []

/-- Today's day entry after the initializations of `record_completed`
(lines 585-590): additionally defaults `best_streak` to `0`. -/
def canonDayC (o : Option Json) : List (String × Json) :=
  match o with
  | none => dayInitCKvs
  | some (.obj dkvs) =>
    let d1 := if (jLookup dkvs "snoozed").isSome then dkvs else jInsert dkvs "snoozed" (.i 0)
    if (jLookup d1 "best_streak").isSome then d1 else jInsert d1 "best_streak" (.i 0)
  | some _ => []

/-- Functional form of `record_prompt` on a well-formed document. -/
def record_prompt_fn (today : String) (kvs ds : List (String × Json)) : Json :=
  let day1 := canonDayP (jLookup ds today)
  let p := jIntD (jLookup day1 "prompts") 0
  .obj (jInsert kvs "days" (.obj (jInsert ds today (.obj (jInsert day1 "prompts" (.i (p + 1)))))))

/-- Functional form of `record_snoozed` on a well-formed document. -/
def record_snoozed_fn (today : String) (kvs ds : List (String × Json)) : Json :=
  let day1 := canonDayP (jLookup ds today)
  let n := jIntD (jLookup day1 "snoozed") 0
  .obj (jInsert kvs "days" (.obj (jInsert ds today (.obj (jInsert day1 "snoozed" (.i (n + 1)))))))

/-- Functional form of `record_completed` on a well-formed document,
mirroring its write order: `completed += 1` (writes `days`), `streak`
write, conditional day-best write (`days` again), conditional global-best
write. -/
def record_completed_fn (today : String) (kvs ds : List (String × Json)) : Json :=
  let day1 := canonDayC (jLookup ds today)
  let c := jIntD (jLookup day1 "completed") 0
  let day2 := jInsert day1 "completed" (.i (c + 1))
  let dsA := jInsert ds today (.obj day2)
  let kvsA := jInsert kvs "days" (.obj dsA)
  let sk := jIntD (jLookup kvs "streak") 0
  let cs := sk + 1
  let kvsB := jInsert kvsA "streak" (.i cs)
  let db := jIntD (jLookup day2 "best_streak") 0
  let kvsC :=
    if cs > db then jInsert kvsB "days" (.obj (jInsert dsA today (.obj (jInsert day2 "best_streak" (.i cs)))))
    else kvsB
  let gb := jIntD (jLookup kvs "best_streak") 0
  .obj (if cs > gb then jInsert kvsC "best_streak" (.i cs) else kvsC)

/-- A concrete baseline state used by the counterexamples and witnesses:
one-minute interval, fresh stats file, working phase, timer running. -/
def exampleState : AppState :=
  { work_duration := 60
    countdown_duration := 300
    time_remaining := 60
    is_countdown := false
    is_snooze := false
    is_paused := false
    pending_sitdown_response := false
    timer_running := true
    current_interval := "1 minute"
    today := "2026-02-03"
    stats_file := some (.obj [("days", .obj [])])
    events := [] }

/-- A concrete well-formed stats document: day best 3, streak 3, global
best 3 (the C7 scenario). -/
def statsC7 : Json :=
  .obj [("days", .obj [("2026-02-03", .obj [("prompts", .i 5), ("completed", .i 3),
    ("snoozed", .i 0), ("best_streak", .i 3)])]), ("streak", .i 3), ("best_streak", .i 3)]

/-- `record_completed` applied to `statsC7`: streak 4, both bests 4. -/
def statsC7after : Json :=
  .obj [("days", .obj [("2026-02-03", .obj [("prompts", .i 5), ("completed", .i 4),
    ("snoozed", .i 0), ("best_streak", .i 4)])]), ("streak", .i 4), ("best_streak", .i 4)]

/-! ## Association-list lemmas -/

@[simp] theorem jLookup_nil {A : Type} (k : String) : jLookup ([] : List (String × A)) k = none := rfl

@[simp] theorem jLookup_cons {A : Type} (k' k : String) (v : A) (rest : List (String × A)) :
    jLookup ((k', v) :: rest) k = if k' = k then some v else jLookup rest k := rfl

@[simp] theorem jLookup_jInsert_self (kvs : List (String × Json)) (k : String) (v : Json) :
    jLookup (jInsert kvs k v) k = some v := by
  induction kvs with
  | nil => simp [jInsert]
  | cons hd tl ih =>
    obtain ⟨k', v'⟩ := hd
    by_cases h : k' = k <;> simp [jInsert, h, ih]

theorem jLookup_jInsert_ne (kvs : List (String × Json)) (k k' : String) (v : Json)
    (h : k ≠ k') : jLookup (jInsert kvs k v) k' = jLookup kvs k' := by
  induction kvs with
  | nil => simp [jInsert, h]
  | cons hd tl ih =>
    obtain ⟨k₀, v₀⟩ := hd
    by_cases h₀ : k₀ = k
    · subst h₀; simp [jInsert, h]
    · simp [jInsert, h₀]
      by_cases h₁ : k₀ = k' <;> simp [h₁, ih]

/-- Every entry of `jInsert kvs k v` is the new pair or an old entry. -/
theorem mem_jInsert (kvs : List (String × Json)) (k : String) (v : Json)
    (p : String × Json) (hp : p ∈ jInsert kvs k v) : p = (k, v) ∨ p ∈ kvs := by
  induction kvs with
  | nil => simpa [jInsert] using hp
  | cons hd tl ih =>
    obtain ⟨k₀, v₀⟩ := hd
    by_cases h₀ : k₀ = k
    · simp only [jInsert, h₀, if_pos rfl] at hp
      rcases List.mem_cons.mp hp with h | h
      · exact Or.inl h
      · exact Or.inr (List.mem_cons_of_mem _ h)
    · simp only [jInsert, if_neg h₀] at hp
      rcases List.mem_cons.mp hp with h | h
      · exact Or.inr (h ▸ List.mem_cons_self _ _)
      · rcases ih h with h' | h'
        · exact Or.inl h'
        · exact Or.inr (List.mem_cons_of_mem _ h')

/-! ## Order lemmas for the version comparison -/

theorem versionCompareParts_self (p : List Int) : versionCompareParts p p = 0 := by
  induction p with
  | nil => rfl
  | cons a ps ih => simp [versionCompareParts, ih]

theorem versionComparePad_eq (qs : List Int) :
    versionComparePad qs = -versionCompareParts qs [] := by
  induction qs with
  | nil => rfl
  | cons q qs ih =>
    simp only [versionComparePad, versionCompareParts]
    split_ifs <;> omega

theorem versionCompareParts_flip (p q : List Int) :
    versionCompareParts p q = -versionCompareParts q p := by
  induction p generalizing q with
  | nil =>
    cases q with
    | nil => rfl
    | cons b qs => simp [versionCompareParts, versionComparePad_eq]
  | cons a ps ih =>
    cases q with
    | nil =>
      simp only [versionCompareParts, versionComparePad_eq]
      split_ifs <;> omega
    | cons b qs =>
      simp only [versionCompareParts]
      have := ih qs
      split_ifs <;> omega

theorem versionCompareParts_mem (p q : List Int) :
    versionCompareParts p q = -1 ∨ versionCompareParts p q = 0 ∨
      versionCompareParts p q = 1 := by
  induction p generalizing q with
  | nil =>
    induction q with
    | nil => simp [versionCompareParts, versionComparePad]
    | cons b qs ihq =>
      simp only [versionCompareParts, versionComparePad] at ihq ⊢
      split_ifs <;> omega
  | cons a ps ih =>
    cases q with
    | nil =>
      have := ih []
      simp only [versionCompareParts] at this ⊢
      split_ifs <;> omega
    | cons b qs =>
      have := ih qs
      simp only [versionCompareParts]
      split_ifs <;> omega

theorem versionCompareParts_trans :
    ∀ p q r : List Int, versionCompareParts p q ≤ 0 → versionCompareParts q r ≤ 0 →
      versionCompareParts p r ≤ 0
  | [], [], [], _, _ => by simp [versionCompareParts, versionComparePad]
  | [], [], _ :: _, _, h2 => h2
  | _ :: _, [], [], h1, _ => h1
  | [], _ :: _, [], _, _ => by simp [versionCompareParts, versionComparePad]
  | [], q :: qs, r :: rs, h1, h2 => by
    have ih := versionCompareParts_trans [] qs rs
    simp only [versionCompareParts, versionComparePad] at h1 h2 ih ⊢
    split_ifs at h1 h2 ⊢ <;> first | omega | exact ih h1 h2
  | p :: ps, [], r :: rs, h1, h2 => by
    have ih := versionCompareParts_trans ps [] rs
    simp only [versionCompareParts, versionComparePad] at h1 h2 ih ⊢
    split_ifs at h1 h2 ⊢ <;> first | omega | exact ih h1 h2
  | p :: ps, q :: qs, [], h1, h2 => by
    have ih := versionCompareParts_trans ps qs []
    simp only [versionCompareParts, versionComparePad] at h1 h2 ih ⊢
    split_ifs at h1 h2 ⊢ <;> first | omega | exact ih h1 h2
  | p :: ps, q :: qs, r :: rs, h1, h2 => by
    have ih := versionCompareParts_trans ps qs rs
    simp only [versionCompareParts] at h1 h2 ⊢
    split_ifs at h1 h2 ⊢ <;> first | omega | exact ih h1 h2
termination_by p q r => p.length + q.length + r.length


/-! ## Shape and insertion lemmas -/

theorem isIntOpt_shape (o : Option Json) (h : isIntOpt o = true) : ∃ n, o = some (.i n) := by
  match o, h with
  | some (.i n), _ => exact ⟨n, rfl⟩

theorem isIntOrNone_shape (o : Option Json) (h : isIntOrNone o = true) :
    o = none ∨ ∃ n, o = some (.i n) := by
  match o, h with
  | none, _ => exact Or.inl rfl
  | some (.i n), _ => exact Or.inr ⟨n, rfl⟩

theorem jInsert_jInsert_self (kvs : List (String × Json)) (k : String) (v w : Json) :
    jInsert (jInsert kvs k v) k w = jInsert kvs k w := by
  induction kvs with
  | nil => simp [jInsert]
  | cons hd tl ih =>
    obtain ⟨k0, v0⟩ := hd
    by_cases h : k0 = k <;> simp [jInsert, h, ih]

/-! ## Step lemmas for the statement shapes of the stats operations -/

theorem initDay_of_mem (today : String) (dayInit : Json) (kvs ds : List (String × Json))
    (hdays : jLookup kvs "days" = some (.obj ds)) (hd : (jLookup ds today).isSome) :
    initDay today dayInit (.obj kvs) = some (.obj kvs) := by
  simp [initDay, Json.getKey, Json.hasKey, hdays, hd]

theorem initDay_of_not_mem (today : String) (dayInit : Json) (kvs ds : List (String × Json))
    (hdays : jLookup kvs "days" = some (.obj ds)) (hd : jLookup ds today = none) :
    initDay today dayInit (.obj kvs) =
      some (.obj (jInsert kvs "days" (.obj (jInsert ds today dayInit)))) := by
  simp [initDay, Json.getKey, Json.hasKey, Json.setKey, hdays, hd]

theorem setDayField_eq (today k : String) (v : Json) (kvs ds dkvs : List (String × Json))
    (hdays : jLookup kvs "days" = some (.obj ds)) (hd : jLookup ds today = some (.obj dkvs)) :
    setDayField today k v (.obj kvs) =
      some (.obj (jInsert kvs "days" (.obj (jInsert ds today (.obj (jInsert dkvs k v)))))) := by
  simp [setDayField, Json.getKey, Json.setKey, hdays, hd]

theorem initDayField_of_mem (today k : String) (kvs ds dkvs : List (String × Json))
    (hdays : jLookup kvs "days" = some (.obj ds)) (hd : jLookup ds today = some (.obj dkvs))
    (hk : (jLookup dkvs k).isSome) :
    initDayField today k (.obj kvs) = some (.obj kvs) := by
  simp [initDayField, Json.getKey, Json.hasKey, hdays, hd, hk]

theorem initDayField_of_not_mem (today k : String) (kvs ds dkvs : List (String × Json))
    (hdays : jLookup kvs "days" = some (.obj ds)) (hd : jLookup ds today = some (.obj dkvs))
    (hk : jLookup dkvs k = none) :
    initDayField today k (.obj kvs) =
      some (.obj (jInsert kvs "days" (.obj (jInsert ds today (.obj (jInsert dkvs k (.i 0))))))) := by
  simp [initDayField, Json.getKey, Json.hasKey, hdays, hd, hk,
    setDayField_eq today k _ kvs ds dkvs hdays hd]

theorem incDayField_eq (today k : String) (n : Int) (kvs ds dkvs : List (String × Json))
    (hdays : jLookup kvs "days" = some (.obj ds)) (hd : jLookup ds today = some (.obj dkvs))
    (hk : jLookup dkvs k = some (.i n)) :
    incDayField today k (.obj kvs) =
      some (.obj (jInsert kvs "days" (.obj (jInsert ds today (.obj (jInsert dkvs k (.i (n + 1)))))))) := by
  simp [incDayField, Json.getKey, Json.asInt, hdays, hd, hk,
    setDayField_eq today k _ kvs ds dkvs hdays hd]


theorem jInsert_lookup_self (kvs : List (String × Json)) (k : String) (v : Json)
    (h : jLookup kvs k = some v) : jInsert kvs k v = kvs := by
  induction kvs with
  | nil => simp at h
  | cons hd tl ih =>
    obtain ⟨k0, v0⟩ := hd
    by_cases hk : k0 = k
    · subst hk
      simp at h
      simp [jInsert, h]
    · simp only [jLookup_cons, if_neg hk] at h
      simp [jInsert, hk, ih h]

/-! ## Equivalence of the record operations with their functional forms -/

theorem record_prompt_eq_fn (today : String) (kvs ds : List (String × Json))
    (hdays : jLookup kvs "days" = some (.obj ds))
    (hday : ∀ day, jLookup ds today = some day → dayWF day = true) :
    record_prompt today (.obj kvs) = some (record_prompt_fn today kvs ds) := by
  cases hd : jLookup ds today with
  | none =>
    unfold record_prompt
    rw [initDay_of_not_mem today dayInitP kvs ds hdays hd]
    simp only [Option.bind_eq_bind, Option.some_bind]
    rw [initDayField_of_mem today "snoozed"
      (jInsert kvs "days" (.obj (jInsert ds today dayInitP)))
      (jInsert ds today dayInitP) dayInitPKvs
      (by simp) (by simp [dayInitP]) (by rfl)]
    simp only [Option.bind_eq_bind, Option.some_bind]
    rw [incDayField_eq today "prompts" 0
      (jInsert kvs "days" (.obj (jInsert ds today dayInitP)))
      (jInsert ds today dayInitP) dayInitPKvs
      (by simp) (by simp [dayInitP]) (by rfl)]
    simp [record_prompt_fn, canonDayP, hd, jInsert_jInsert_self, jIntD, dayInitPKvs]
  | some day =>
    have hw := hday day hd
    cases day with
    | obj dkvs =>
      simp only [dayWF, Bool.and_eq_true] at hw
      obtain ⟨⟨⟨hp, hc⟩, hsn⟩, hb⟩ := hw
      obtain ⟨p, hp⟩ := isIntOpt_shape _ hp
      unfold record_prompt
      rw [initDay_of_mem today dayInitP kvs ds hdays (by rw [hd]; rfl)]
      simp only [Option.bind_eq_bind, Option.some_bind]
      cases hsn2 : jLookup dkvs "snoozed" with
      | some sv =>
        rw [initDayField_of_mem today "snoozed" kvs ds dkvs hdays hd (by rw [hsn2]; rfl)]
        simp only [Option.bind_eq_bind, Option.some_bind]
        rw [incDayField_eq today "prompts" p kvs ds dkvs hdays hd hp]
        simp [record_prompt_fn, canonDayP, hd, hsn2, jIntD, hp]
      | none =>
        rw [initDayField_of_not_mem today "snoozed" kvs ds dkvs hdays hd hsn2]
        simp only [Option.bind_eq_bind, Option.some_bind]
        rw [incDayField_eq today "prompts" p
          (jInsert kvs "days" (.obj (jInsert ds today (.obj (jInsert dkvs "snoozed" (.i 0))))))
          (jInsert ds today (.obj (jInsert dkvs "snoozed" (.i 0))))
          (jInsert dkvs "snoozed" (.i 0))
          (by simp) (by simp)
          (by rw [jLookup_jInsert_ne _ _ _ _ (by decide)]; exact hp)]
        simp [record_prompt_fn, canonDayP, hd, hsn2, jIntD, hp, jInsert_jInsert_self,
          jLookup_jInsert_ne _ _ _ _ (by decide : ("snoozed" : String) ≠ "prompts")]
    | null => simp [dayWF] at hw
    | b v => simp [dayWF] at hw
    | i v => simp [dayWF] at hw
    | s v => simp [dayWF] at hw
    | arr v => simp [dayWF] at hw
theorem record_completed_init_eq (today : String) (kvs ds : List (String × Json))
    (hdays : jLookup kvs "days" = some (.obj ds))
    (hday : ∀ day, jLookup ds today = some day → dayWF day = true) :
    record_completed_init today (.obj kvs) =
      some (.obj (jInsert kvs "days" (.obj (jInsert ds today (.obj (canonDayC (jLookup ds today))))))) := by
  cases hd : jLookup ds today with
  | none =>
    unfold record_completed_init
    rw [initDay_of_not_mem today dayInitC kvs ds hdays hd]
    simp only [Option.bind_eq_bind, Option.some_bind]
    rw [initDayField_of_mem today "snoozed"
      (jInsert kvs "days" (.obj (jInsert ds today dayInitC)))
      (jInsert ds today dayInitC) dayInitCKvs
      (by simp) (by simp [dayInitC]) (by rfl)]
    simp only [Option.bind_eq_bind, Option.some_bind]
    rw [initDayField_of_mem today "best_streak"
      (jInsert kvs "days" (.obj (jInsert ds today dayInitC)))
      (jInsert ds today dayInitC) dayInitCKvs
      (by simp) (by simp [dayInitC]) (by rfl)]
    simp [canonDayC, dayInitC]
  | some day =>
    have hw := hday day hd
    cases day with
    | obj dkvs =>
      simp only [dayWF, Bool.and_eq_true] at hw
      obtain ⟨⟨⟨hp, hc⟩, hsn⟩, hb⟩ := hw
      unfold record_completed_init
      rw [initDay_of_mem today dayInitC kvs ds hdays (by rw [hd]; rfl)]
      simp only [Option.bind_eq_bind, Option.some_bind]
      cases hsn2 : jLookup dkvs "snoozed" with
      | some sv =>
        rw [initDayField_of_mem today "snoozed" kvs ds dkvs hdays hd (by rw [hsn2]; rfl)]
        simp only [Option.bind_eq_bind, Option.some_bind]
        cases hb2 : jLookup dkvs "best_streak" with
        | some bv =>
          rw [initDayField_of_mem today "best_streak" kvs ds dkvs hdays hd (by rw [hb2]; rfl)]
          rw [canonDayC]
          simp only [hsn2, Option.isSome_some, if_true, hb2]
          rw [jInsert_lookup_self ds today (.obj dkvs) hd, jInsert_lookup_self kvs "days" (.obj ds) hdays]
        | none =>
          rw [initDayField_of_not_mem today "best_streak" kvs ds dkvs hdays hd hb2]
          rw [canonDayC]
          simp [hsn2, hb2]
      | none =>
        rw [initDayField_of_not_mem today "snoozed" kvs ds dkvs hdays hd hsn2]
        simp only [Option.bind_eq_bind, Option.some_bind]
        cases hb2 : jLookup dkvs "best_streak" with
        | some bv =>
          rw [initDayField_of_mem today "best_streak"
            (jInsert kvs "days" (.obj (jInsert ds today (.obj (jInsert dkvs "snoozed" (.i 0))))))
            (jInsert ds today (.obj (jInsert dkvs "snoozed" (.i 0))))
            (jInsert dkvs "snoozed" (.i 0))
            (by simp) (by simp)
            (by rw [jLookup_jInsert_ne _ _ _ _ (by decide), hb2]; rfl)]
          rw [canonDayC]
          simp [hsn2, hb2, jLookup_jInsert_ne _ _ _ _ (by decide : ("snoozed" : String) ≠ "best_streak")]
        | none =>
          rw [initDayField_of_not_mem today "best_streak"
            (jInsert kvs "days" (.obj (jInsert ds today (.obj (jInsert dkvs "snoozed" (.i 0))))))
            (jInsert ds today (.obj (jInsert dkvs "snoozed" (.i 0))))
            (jInsert dkvs "snoozed" (.i 0))
            (by simp) (by simp)
            (by rw [jLookup_jInsert_ne _ _ _ _ (by decide), hb2])]
          rw [canonDayC]
          simp [hsn2, hb2, jInsert_jInsert_self,
            jLookup_jInsert_ne _ _ _ _ (by decide : ("snoozed" : String) ≠ "best_streak")]
    | null => simp [dayWF] at hw
    | b v => simp [dayWF] at hw
    | i v => simp [dayWF] at hw
    | s v => simp [dayWF] at hw
    | arr v => simp [dayWF] at hw

theorem streak_read (kvs : List (String × Json))
    (hsk : isIntOrNone (jLookup kvs "streak") = true) :
    (Json.obj kvs).getD "streak" (.i 0) = some (.i (jIntD (jLookup kvs "streak") 0)) := by
  rcases isIntOrNone_shape _ hsk with h | ⟨n, h⟩ <;> simp [Json.getD, jIntD, h]

theorem updateDayBest_eq (today : String) (cs db : Int) (kvs ds dkvs : List (String × Json))
    (hdays : jLookup kvs "days" = some (.obj ds))
    (hd : jLookup ds today = some (.obj dkvs))
    (hdb : jLookup dkvs "best_streak" = some (.i db)) :
    updateDayBest today cs (.obj kvs) =
      some (.obj (if cs > db then
          jInsert kvs "days" (.obj (jInsert ds today (.obj (jInsert dkvs "best_streak" (.i cs)))))
        else kvs)) := by
  unfold updateDayBest
  simp only [Json.getKey, hdays, Option.bind_eq_bind, Option.some_bind, hd, hdb, Json.asInt]
  by_cases h : cs > db
  · simp only [if_pos h]
    rw [setDayField_eq today _ _ kvs ds dkvs hdays hd]
  · simp only [if_neg h]
    rfl

theorem updateGlobalBest_eq (cs : Int) (kvs : List (String × Json))
    (hgb : isIntOrNone (jLookup kvs "best_streak") = true) :
    updateGlobalBest cs (.obj kvs) =
      some (.obj (if cs > jIntD (jLookup kvs "best_streak") 0 then
          jInsert kvs "best_streak" (.i cs)
        else kvs)) := by
  unfold updateGlobalBest
  rcases isIntOrNone_shape _ hgb with h | ⟨n, h⟩ <;>
    simp only [Json.getD, h, Option.getD_none, Option.getD_some, Option.bind_eq_bind,
      Option.some_bind, Json.asInt, jIntD, Json.setKey]
  · by_cases hc : cs > 0 <;> simp [hc]
  · by_cases hc : cs > n <;> simp [hc, Json.setKey]


theorem record_completed_tail_eq (today : String) (kvs1 ds1 day1 : List (String × Json))
    (c db : Int)
    (hdays1 : jLookup kvs1 "days" = some (.obj ds1))
    (hd1 : jLookup ds1 today = some (.obj day1))
    (hc : jLookup day1 "completed" = some (.i c))
    (hdb : jLookup day1 "best_streak" = some (.i db))
    (hsk : isIntOrNone (jLookup kvs1 "streak") = true)
    (hgb : isIntOrNone (jLookup kvs1 "best_streak") = true) :
    record_completed_tail today (.obj kvs1) =
      some (.obj (
        let day2 := jInsert day1 "completed" (.i (c + 1))
        let dsA := jInsert ds1 today (.obj day2)
        let kvsA := jInsert kvs1 "days" (.obj dsA)
        let cs := jIntD (jLookup kvs1 "streak") 0 + 1
        let kvsB := jInsert kvsA "streak" (.i cs)
        let kvsC :=
          if cs > db then
            jInsert kvsB "days" (.obj (jInsert dsA today (.obj (jInsert day2 "best_streak" (.i cs)))))
          else kvsB
        if cs > jIntD (jLookup kvs1 "best_streak") 0 then jInsert kvsC "best_streak" (.i cs)
        else kvsC)) := by
  have hds : ("days" : String) ≠ "streak" := by decide
  have hsd : ("streak" : String) ≠ "days" := by decide
  have hdb2 : ("days" : String) ≠ "best_streak" := by decide
  have hsb : ("streak" : String) ≠ "best_streak" := by decide
  have hcb : ("completed" : String) ≠ "best_streak" := by decide
  unfold record_completed_tail
  rw [incDayField_eq today "completed" c kvs1 ds1 day1 hdays1 hd1 hc]
  simp only [Option.bind_eq_bind, Option.some_bind]
  set day2 := jInsert day1 "completed" (.i (c + 1)) with hday2
  set dsA := jInsert ds1 today (Json.obj day2) with hdsA
  set kvsA := jInsert kvs1 "days" (Json.obj dsA) with hkvsA
  have t1 : jLookup kvsA "streak" = jLookup kvs1 "streak" := by
    rw [hkvsA]; exact jLookup_jInsert_ne _ _ _ _ hds
  rw [streak_read kvsA (by rw [t1]; exact hsk)]
  simp only [Option.bind_eq_bind, Option.some_bind, Json.asInt, Json.setKey]
  rw [t1]
  set cs := jIntD (jLookup kvs1 "streak") 0 + 1 with hcs
  set kvsB := jInsert kvsA "streak" (.i cs) with hkvsB
  have t2 : jLookup kvsB "days" = some (.obj dsA) := by
    rw [hkvsB, jLookup_jInsert_ne _ _ _ _ hsd, hkvsA]
    exact jLookup_jInsert_self _ _ _
  have t3 : jLookup dsA today = some (.obj day2) := by
    rw [hdsA]; exact jLookup_jInsert_self _ _ _
  have t4 : jLookup day2 "best_streak" = some (.i db) := by
    rw [hday2, jLookup_jInsert_ne _ _ _ _ hcb]; exact hdb
  rw [updateDayBest_eq today cs db kvsB dsA day2 t2 t3 t4]
  simp only [Option.bind_eq_bind, Option.some_bind]
  by_cases hdbc : cs > db
  · simp only [if_pos hdbc]
    set kvsC := jInsert kvsB "days" (.obj (jInsert dsA today (.obj (jInsert day2 "best_streak" (.i cs))))) with hkvsC
    have t5 : jLookup kvsC "best_streak" = jLookup kvs1 "best_streak" := by
      rw [hkvsC, jLookup_jInsert_ne _ _ _ _ hdb2, hkvsB, jLookup_jInsert_ne _ _ _ _ hsb, hkvsA,
        jLookup_jInsert_ne _ _ _ _ hdb2]
    rw [updateGlobalBest_eq cs kvsC (by rw [t5]; exact hgb), t5]
  · simp only [if_neg hdbc]
    have t5 : jLookup kvsB "best_streak" = jLookup kvs1 "best_streak" := by
      rw [hkvsB, jLookup_jInsert_ne _ _ _ _ hsb, hkvsA, jLookup_jInsert_ne _ _ _ _ hdb2]
    rw [updateGlobalBest_eq cs kvsB (by rw [t5]; exact hgb), t5]


theorem canonDayC_completed (o : Option Json) (h : ∀ day, o = some day → dayWF day = true) :
    jLookup (canonDayC o) "completed" =
      some (.i (jIntD (o.bind (fun d => d.getKey "completed")) 0)) := by
  cases o with
  | none => rfl
  | some day =>
    have hw := h day rfl
    cases day with
    | obj dkvs =>
      simp only [dayWF, Bool.and_eq_true] at hw
      obtain ⟨⟨⟨hp, hc⟩, hsn⟩, hb⟩ := hw
      obtain ⟨cv, hcv⟩ := isIntOpt_shape _ hc
      simp only [canonDayC]
      split_ifs with h1 h2 h3 <;>
        simp [Json.getKey, jIntD, hcv,
          jLookup_jInsert_ne _ _ _ _ (by decide : ("snoozed" : String) ≠ "completed"),
          jLookup_jInsert_ne _ _ _ _ (by decide : ("best_streak" : String) ≠ "completed")]
    | null => simp [dayWF] at hw
    | b v => simp [dayWF] at hw
    | i v => simp [dayWF] at hw
    | s v => simp [dayWF] at hw
    | arr v => simp [dayWF] at hw

theorem canonDayC_best (o : Option Json) (h : ∀ day, o = some day → dayWF day = true) :
    jLookup (canonDayC o) "best_streak" =
      some (.i (jIntD (o.bind (fun d => d.getKey "best_streak")) 0)) := by
  cases o with
  | none => rfl
  | some day =>
    have hw := h day rfl
    cases day with
    | obj dkvs =>
      simp only [dayWF, Bool.and_eq_true] at hw
      obtain ⟨⟨⟨hp, hc⟩, hsn⟩, hb⟩ := hw
      simp only [canonDayC]
      rcases isIntOrNone_shape _ hb with hbn | ⟨bv, hbv⟩ <;>
        split_ifs with h1 h2 h3 <;>
          simp_all [Json.getKey, jIntD,
            jLookup_jInsert_ne _ _ _ _ (by decide : ("snoozed" : String) ≠ "best_streak")]
    | null => simp [dayWF] at hw
    | b v => simp [dayWF] at hw
    | i v => simp [dayWF] at hw
    | s v => simp [dayWF] at hw
    | arr v => simp [dayWF] at hw


theorem record_completed_eq_fn (today : String) (kvs ds : List (String × Json))
    (hdays : jLookup kvs "days" = some (.obj ds))
    (hday : ∀ day, jLookup ds today = some day → dayWF day = true)
    (hsk : isIntOrNone (jLookup kvs "streak") = true)
    (hgb : isIntOrNone (jLookup kvs "best_streak") = true) :
    record_completed today (.obj kvs) = some (record_completed_fn today kvs ds) := by
  have hds : ("days" : String) ≠ "streak" := by decide
  have hdb2 : ("days" : String) ≠ "best_streak" := by decide
  have hcb : ("completed" : String) ≠ "best_streak" := by decide
  unfold record_completed
  rw [record_completed_init_eq today kvs ds hdays hday]
  simp only [Option.bind_eq_bind, Option.some_bind]
  rw [record_completed_tail_eq today
    (jInsert kvs "days" (.obj (jInsert ds today (.obj (canonDayC (jLookup ds today))))))
    (jInsert ds today (.obj (canonDayC (jLookup ds today))))
    (canonDayC (jLookup ds today))
    (jIntD ((jLookup ds today).bind (fun d => d.getKey "completed")) 0)
    (jIntD ((jLookup ds today).bind (fun d => d.getKey "best_streak")) 0)
    (jLookup_jInsert_self _ _ _)
    (jLookup_jInsert_self _ _ _)
    (canonDayC_completed _ hday)
    (canonDayC_best _ hday)
    (by rw [jLookup_jInsert_ne _ _ _ _ hds]; exact hsk)
    (by rw [jLookup_jInsert_ne _ _ _ _ hdb2]; exact hgb)]
  simp only [record_completed_fn, jInsert_jInsert_self,
    jLookup_jInsert_ne _ _ _ _ hds, jLookup_jInsert_ne _ _ _ _ hdb2,
    canonDayC_completed _ hday, canonDayC_best _ hday,
    jLookup_jInsert_ne _ _ _ _ hcb, jIntD]


theorem record_snoozed_eq_fn (today : String) (kvs ds : List (String × Json))
    (hdays : jLookup kvs "days" = some (.obj ds))
    (hday : ∀ day, jLookup ds today = some day → dayWF day = true) :
    record_snoozed today (.obj kvs) = some (record_snoozed_fn today kvs ds) := by
  cases hd : jLookup ds today with
  | none =>
    unfold record_snoozed
    rw [initDay_of_not_mem today dayInitP kvs ds hdays hd]
    simp only [Option.bind_eq_bind, Option.some_bind]
    rw [initDayField_of_mem today "snoozed"
      (jInsert kvs "days" (.obj (jInsert ds today dayInitP)))
      (jInsert ds today dayInitP) dayInitPKvs
      (by simp) (by simp [dayInitP]) (by rfl)]
    simp only [Option.bind_eq_bind, Option.some_bind]
    rw [incDayField_eq today "snoozed" 0
      (jInsert kvs "days" (.obj (jInsert ds today dayInitP)))
      (jInsert ds today dayInitP) dayInitPKvs
      (by simp) (by simp [dayInitP]) (by rfl)]
    simp [record_snoozed_fn, canonDayP, hd, jInsert_jInsert_self, jIntD, dayInitPKvs]
  | some day =>
    have hw := hday day hd
    cases day with
    | obj dkvs =>
      simp only [dayWF, Bool.and_eq_true] at hw
      obtain ⟨⟨⟨hp, hc⟩, hsn⟩, hb⟩ := hw
      unfold record_snoozed
      rw [initDay_of_mem today dayInitP kvs ds hdays (by rw [hd]; rfl)]
      simp only [Option.bind_eq_bind, Option.some_bind]
      rcases isIntOrNone_shape _ hsn with hsn2 | ⟨sn, hsn2⟩
      · rw [initDayField_of_not_mem today "snoozed" kvs ds dkvs hdays hd hsn2]
        simp only [Option.bind_eq_bind, Option.some_bind]
        rw [incDayField_eq today "snoozed" 0
          (jInsert kvs "days" (.obj (jInsert ds today (.obj (jInsert dkvs "snoozed" (.i 0))))))
          (jInsert ds today (.obj (jInsert dkvs "snoozed" (.i 0))))
          (jInsert dkvs "snoozed" (.i 0))
          (by simp) (by simp) (jLookup_jInsert_self _ _ _)]
        simp [record_snoozed_fn, canonDayP, hd, hsn2, jIntD, jInsert_jInsert_self]
      · rw [initDayField_of_mem today "snoozed" kvs ds dkvs hdays hd (by rw [hsn2]; rfl)]
        simp only [Option.bind_eq_bind, Option.some_bind]
        rw [incDayField_eq today "snoozed" sn kvs ds dkvs hdays hd hsn2]
        simp [record_snoozed_fn, canonDayP, hd, hsn2, jIntD]
    | null => simp [dayWF] at hw
    | b v => simp [dayWF] at hw
    | i v => simp [dayWF] at hw
    | s v => simp [dayWF] at hw
    | arr v => simp [dayWF] at hw


/-! ## Claim theorems -/

/-- **C4**: `_version_compare` splits each version string into dot-separated
integer components, pads the shorter with zeros, and compares component-wise
left to right with the first unequal component deciding (this is
`version_compare`/`versionCompareParts` above, embedded from lines 863-875);
the comparison is a total order on dot-integer version strings: it is zero
on equal part lists, antisymmetric, transitive, and total (always one of
`-1, 0, 1`), and the three quoted examples evaluate as the claim states. -/
theorem version_compare_total_order :
    (∀ p, versionCompareParts p p = 0) ∧
    (∀ p q, versionCompareParts p q = -versionCompareParts q p) ∧
    (∀ p q r, versionCompareParts p q ≤ 0 → versionCompareParts q r ≤ 0 →
      versionCompareParts p r ≤ 0) ∧
    (∀ p q, versionCompareParts p q = -1 ∨ versionCompareParts p q = 0 ∨
      versionCompareParts p q = 1) ∧
    version_compare "1.7.2" "1.7.10" = some (-1) ∧
    version_compare "2.0.0" "1.9.9" = some 1 ∧
    version_compare "1.0" "1.0.0" = some 0 :=
  ⟨versionCompareParts_self, versionCompareParts_flip, versionCompareParts_trans,
    versionCompareParts_mem, rfl, rfl, rfl⟩

/-- Witness for C4: the transitivity component applied at the parsed parts
of the three quoted versions. -/
theorem version_compare_total_order_witness :
    versionCompareParts [1, 0] [1, 7, 2] ≤ 0 ∧ versionCompareParts [1, 7, 2] [1, 7, 10] ≤ 0 ∧
      versionCompareParts [1, 0] [1, 7, 10] ≤ 0 :=
  ⟨by decide, by decide,
    version_compare_total_order.2.2.1 [1, 0] [1, 7, 2] [1, 7, 10] (by decide) (by decide)⟩

/-- **C5**: saving the configuration (read-merge-write of the `interval`
key) and loading it back yields the same interval value, and every key of
the pre-existing document other than `interval` — in particular every
unknown key — is preserved unchanged in the written file. -/
theorem save_load_config_roundtrip (kvs : List (String × Json)) (st : ConfigFields) :
    ∃ w, save_config (some (.obj kvs)) st.current_interval = some w ∧
      (∀ k, k ≠ "interval" → w.getKey k = Json.getKey (.obj kvs) k) ∧
      ∃ st2, load_config (some w) st = some st2 ∧
        st2.current_interval = st.current_interval := by
  refine ⟨.obj (jInsert kvs "interval" (.s st.current_interval)), rfl, ?_, ?_⟩
  · intro k hk
    simp only [Json.getKey]
    exact jLookup_jInsert_ne _ _ _ _ (fun h => hk h.symm)
  · cases hci : jLookup intervals st.current_interval with
    | some d =>
      refine ⟨⟨st.current_interval, d, d⟩, ?_, rfl⟩
      simp [load_config, Json.getD, jLookup_jInsert_self, hci]
    | none =>
      refine ⟨st, ?_, rfl⟩
      simp [load_config, Json.getD, jLookup_jInsert_self, hci]

/-- Witness for C5 at a concrete document with an unknown key. -/
theorem save_load_config_roundtrip_witness :
    ∃ w, save_config (some (.obj [("theme", .s "dark"), ("interval", .s "60 minutes")]))
        "30 minutes" = some w ∧
      w.getKey "theme" = some (.s "dark") ∧
      ∃ st2, load_config (some w) ⟨"30 minutes", 1800, 1800⟩ = some st2 ∧
        st2.current_interval = "30 minutes" := by
  obtain ⟨w, h1, h2, st2, h3, h4⟩ :=
    save_load_config_roundtrip [("theme", .s "dark"), ("interval", .s "60 minutes")]
      ⟨"30 minutes", 1800, 1800⟩
  refine ⟨w, h1, ?_, st2, h3, h4⟩
  rw [h2 "theme" (by decide)]
  rfl

/-- **C6**: the automatic update check runs the remote check exactly when
`now - last_update_check ≥ 86400`; its result does not depend on whether
the remote check succeeded or failed (the check traps every exception), and
whenever the check runs the new timestamp is written, so a failed automatic
check is not retried sooner than the next 24-hour window. -/
theorem check_for_updates_auto_gating (file : Option Json) (now last : Int) (r1 r2 : Bool)
    (hlast : (file.getD (.obj [])).getD "last_update_check" (.i 0) = some (.i last)) :
    check_for_updates_auto file now r1 = check_for_updates_auto file now r2 ∧
    (now - last ≥ UPDATE_CHECK_INTERVAL →
      ∃ kvs2, check_for_updates_auto file now r1 = some (true, some (.obj kvs2)) ∧
        jLookup kvs2 "last_update_check" = some (.i now)) ∧
    (now - last < UPDATE_CHECK_INTERVAL →
      check_for_updates_auto file now r1 = some (false, file)) := by
  refine ⟨rfl, ?_, ?_⟩
  · intro hge
    cases hc : file.getD (.obj []) with
    | obj kvs =>
      refine ⟨jInsert kvs "last_update_check" (.i now), ?_, jLookup_jInsert_self _ _ _⟩
      rw [hc] at hlast
      simp [check_for_updates_auto, hc, hlast, Json.asInt, Json.setKey, if_pos hge, hge]
    | null => rw [hc] at hlast; simp [Json.getD] at hlast
    | b v => rw [hc] at hlast; simp [Json.getD] at hlast
    | i v => rw [hc] at hlast; simp [Json.getD] at hlast
    | s v => rw [hc] at hlast; simp [Json.getD] at hlast
    | arr v => rw [hc] at hlast; simp [Json.getD] at hlast
  · intro hlt
    cases hc : file.getD (.obj []) with
    | obj kvs =>
      rw [hc] at hlast
      simp [check_for_updates_auto, hc, hlast, Json.asInt, not_le.mpr, hlt]
    | null => rw [hc] at hlast; simp [Json.getD] at hlast
    | b v => rw [hc] at hlast; simp [Json.getD] at hlast
    | i v => rw [hc] at hlast; simp [Json.getD] at hlast
    | s v => rw [hc] at hlast; simp [Json.getD] at hlast
    | arr v => rw [hc] at hlast; simp [Json.getD] at hlast

/-- Witness for C6: a config checked 25 hours ago gets checked and
re-stamped; one checked 1 hour ago does not. -/
theorem check_for_updates_auto_gating_witness :
    ∃ kvs2,
      check_for_updates_auto (some (.obj [("last_update_check", .i 100000)])) 190000 false =
        some (true, some (.obj kvs2)) ∧
      jLookup kvs2 "last_update_check" = some (.i 190000) := by
  obtain ⟨-, h2, -⟩ :=
    check_for_updates_auto_gating (some (.obj [("last_update_check", .i 100000)]))
      190000 100000 false true (by rfl)
  exact h2 (by decide)

/-- **C10**: `load_stats` returns the default `{"days": {}}` for an absent
or unparseable file and returns any successfully parsed value unvalidated;
consequently on a parsed JSON object lacking the `days` key every
stats-recording operation fails with a key-lookup error (`none`) instead of
recovering to the default. -/
theorem load_stats_no_validation :
    load_stats none = Json.obj [("days", .obj [])] ∧
    (∀ v, load_stats (some v) = v) ∧
    (∀ today kvs, jLookup kvs "days" = none →
      record_prompt today (.obj kvs) = none ∧
      record_completed today (.obj kvs) = none ∧
      record_snoozed today (.obj kvs) = none) := by
  refine ⟨rfl, fun v => rfl, fun today kvs h => ⟨?_, ?_, ?_⟩⟩ <;>
    simp [record_prompt, record_completed, record_completed_init, record_snoozed, initDay,
      Json.getKey, h, Option.bind_eq_bind, Option.none_bind]

/-- Witness for C10: `{"streak": 2}` parses but breaks every recording
operation. -/
theorem load_stats_no_validation_witness :
    record_prompt "2026-02-03" (.obj [("streak", .i 2)]) = none ∧
    record_completed "2026-02-03" (.obj [("streak", .i 2)]) = none ∧
    record_snoozed "2026-02-03" (.obj [("streak", .i 2)]) = none :=
  load_stats_no_validation.2.2 "2026-02-03" [("streak", .i 2)] rfl

/-- **C9**: resuming from Paused via `toggle_pause` and the screen-wake
handler both reset the machine to the Working phase with `time_remaining`
at the full `work_duration`, for every prior state — neither resumes from
the interrupted remaining time (the wake handler leaves the `is_paused`
menu flag untouched, but restarts the tick timer, which is what Paused
means in §4.1). -/
theorem resume_and_wake_reset (s : AppState) :
    (s.is_paused = true →
      (toggle_pause s).phase = Phase.Working ∧
      (toggle_pause s).time_remaining = s.work_duration ∧
      (toggle_pause s).is_countdown = false ∧ (toggle_pause s).is_snooze = false ∧
      (toggle_pause s).is_paused = false) ∧
    ((screenDidWake_ s).phase = Phase.Working ∧
      (screenDidWake_ s).time_remaining = s.work_duration ∧
      (screenDidWake_ s).is_countdown = false ∧ (screenDidWake_ s).is_snooze = false ∧
      (screenDidWake_ s).is_paused = s.is_paused) := by
  constructor
  · intro h
    simp [toggle_pause, h, AppState.phase]
  · simp [screenDidWake_, AppState.phase]

/-- Witness for C9: resuming the paused example state. -/
theorem resume_and_wake_reset_witness :
    (toggle_pause
      { exampleState with
        is_paused := true
        timer_running := false
        is_countdown := true
        time_remaining := 17 }).phase = Phase.Working ∧
    (toggle_pause
      { exampleState with
        is_paused := true
        timer_running := false
        is_countdown := true
        time_remaining := 17 }).time_remaining = 60 :=
  ⟨((resume_and_wake_reset _).1 rfl).1, ((resume_and_wake_reset _).1 rfl).2.1⟩


/-! ## Tick iteration lemmas -/

theorem tickN_succ_right (n : Nat) (s : AppState) :
    tickN (n + 1) s = (tickN n s).bind tick := by
  induction n generalizing s with
  | zero => simp [tickN]
  | succ n ih =>
    show (tick s).bind (tickN (n + 1)) = _
    cases h : tick s with
    | none => simp [tickN, h]
    | some s1 =>
      rw [show tickN (n + 1) s = (tick s).bind (tickN n) from rfl, h, Option.some_bind,
        Option.some_bind]
      exact ih s1

theorem tickN_no_expiry (k : Nat) (s : AppState) (h : (k : Int) < s.time_remaining) :
    tickN k s = some { s with time_remaining := s.time_remaining - k } := by
  induction k generalizing s with
  | zero => simp [tickN]
  | succ k ih =>
    have h1 : ¬ ({ s with time_remaining := s.time_remaining - 1 } : AppState).time_remaining ≤ 0 := by
      show ¬ s.time_remaining - 1 ≤ 0
      push_cast at h
      omega
    rw [show tickN (k + 1) s = (tick s).bind (tickN k) from rfl]
    rw [tick, if_neg h1, Option.some_bind]
    rw [ih _ (by show (k : Int) < s.time_remaining - 1; push_cast at h; omega)]
    have harith : s.time_remaining - 1 - (k : Int) = s.time_remaining - ((k : Nat) + 1 : Nat) := by
      push_cast
      ring
    simp [harith]


/-! ## Well-formedness plumbing -/

theorem jLookup_mem {A : Type} (l : List (String × A)) (k : String) (v : A)
    (h : jLookup l k = some v) : (k, v) ∈ l := by
  induction l with
  | nil => simp at h
  | cons hd tl ih =>
    obtain ⟨k0, v0⟩ := hd
    by_cases hk : k0 = k
    · subst hk
      simp only [jLookup_cons, if_pos rfl] at h
      cases h
      exact List.mem_cons_self _ _
    · simp only [jLookup_cons, if_neg hk] at h
      exact List.mem_cons_of_mem _ (ih h)

theorem statsWF_destruct (stats : Json) (h : statsWF stats = true) :
    ∃ kvs ds, stats = .obj kvs ∧ jLookup kvs "days" = some (.obj ds) ∧
      isIntOrNone (jLookup kvs "streak") = true ∧
      isIntOrNone (jLookup kvs "best_streak") = true ∧
      ∀ p, p ∈ ds → dayWF p.2 = true := by
  cases stats with
  | obj kvs =>
    simp only [statsWF, Bool.and_eq_true] at h
    obtain ⟨⟨hsk, hgb⟩, hdays⟩ := h
    cases hd : jLookup kvs "days" with
    | none => rw [hd] at hdays; exact absurd hdays (by simp)
    | some daysv =>
      cases daysv with
      | obj ds =>
        rw [hd] at hdays
        refine ⟨kvs, ds, rfl, hd, hsk, hgb, ?_⟩
        intro p hp
        simpa using List.all_eq_true.mp hdays p hp
      | null => rw [hd] at hdays; exact absurd hdays (by simp)
      | b v => rw [hd] at hdays; exact absurd hdays (by simp)
      | i v => rw [hd] at hdays; exact absurd hdays (by simp)
      | s v => rw [hd] at hdays; exact absurd hdays (by simp)
      | arr v => rw [hd] at hdays; exact absurd hdays (by simp)
  | null => simp [statsWF] at h
  | b v => simp [statsWF] at h
  | i v => simp [statsWF] at h
  | s v => simp [statsWF] at h
  | arr v => simp [statsWF] at h

theorem statsWF_set_streak (kvs : List (String × Json)) (n : Int)
    (hwf : statsWF (.obj kvs) = true) :
    statsWF (.obj (jInsert kvs "streak" (.i n))) = true := by
  simp only [statsWF, Bool.and_eq_true] at hwf ⊢
  obtain ⟨⟨hsk, hgb⟩, hdays⟩ := hwf
  refine ⟨⟨?_, ?_⟩, ?_⟩
  · rw [jLookup_jInsert_self]
    rfl
  · rw [jLookup_jInsert_ne _ _ _ _ (by decide : ("streak" : String) ≠ "best_streak")]
    exact hgb
  · rw [jLookup_jInsert_ne _ _ _ _ (by decide : ("streak" : String) ≠ "days")]
    exact hdays


theorem tick_expire_work (s : AppState) (h : s.time_remaining ≤ 1) (hc : s.is_countdown = false) :
    tick s = some (start_countdown { s with time_remaining := s.time_remaining - 1 }) := by
  have h1 : s.time_remaining - 1 ≤ 0 := by omega
  simp [tick, hc, h1]

theorem tick_expire_countdown (s : AppState) (h : s.time_remaining ≤ 1)
    (hc : s.is_countdown = true) :
    tick s = restart_work_timer { s with time_remaining := s.time_remaining - 1 } := by
  have h1 : s.time_remaining - 1 ≤ 0 := by omega
  simp [tick, hc, h1]

/-- **C1 counterexample**: from a Working-phase state with
`work_duration = time_remaining = 60` and a fresh stats file, 60 ticks do
reach Standing with `time_remaining = 300`, but the stats file is unchanged
(the day table is still empty, so no stand-up prompt was recorded) and
`pending_sitdown_response` is still `false`: the recording and pending-flag
parts of the claim are false at this input. -/
theorem working_expiry_counterexample :
    (tickN 60 exampleState).map (fun s2 =>
        (s2.is_countdown, s2.time_remaining, s2.pending_sitdown_response, s2.stats_file,
          s2.events)) =
      some (true, 300, false, some (.obj [("days", .obj [])]), [Event.standupShown]) := by
  rfl

/-- **C1 (amended)**: for every Working-phase state with
`time_remaining = work_duration = d > 0` (and the code's fixed
`countdown_duration = 300`), `d` ticks make the phase Standing
(`is_countdown` true) with `time_remaining = 300` and emit the stand-up
notification; the stats document and `pending_sitdown_response` are
unchanged — the stand-prompt statistics record and the pending flag are set
later, at the Standing → Working transition (`restart_work_timer`), not at
this one. -/
theorem working_expiry_behavior (s : AppState) (d : Nat)
    (hd : 0 < d)
    (htr : s.time_remaining = (d : Int))
    (hwd : s.work_duration = (d : Int))
    (hcd : s.countdown_duration = 300)
    (hc : s.is_countdown = false)
    (hr : s.timer_running = true) :
    ∃ s2, tickN d s = some s2 ∧ s2.phase = Phase.Standing ∧ s2.is_countdown = true ∧
      s2.time_remaining = 300 ∧ s2.events = s.events ++ [Event.standupShown] ∧
      s2.stats_file = s.stats_file ∧
      s2.pending_sitdown_response = s.pending_sitdown_response := by
  obtain ⟨e, rfl⟩ : ∃ e, d = e + 1 := ⟨d - 1, (Nat.succ_pred_eq_of_pos hd).symm⟩
  rw [tickN_succ_right]
  rw [tickN_no_expiry e s (by rw [htr]; push_cast; omega)]
  rw [Option.some_bind]
  rw [tick_expire_work _
    (by show s.time_remaining - (e : Int) ≤ 1; rw [htr]; push_cast; omega)
    (by show s.is_countdown = false; exact hc)]
  refine ⟨_, rfl, ?_, rfl, ?_, rfl, rfl, rfl⟩
  · show AppState.phase _ = Phase.Standing
    simp [AppState.phase, start_countdown, show_standup_notification, hr]
  · show ({ s with time_remaining := s.time_remaining - (e : Int) - 1 } : AppState).countdown_duration = 300
    exact hcd

/-- Witness for the amended C1 at `work_duration = 60` with a fresh file. -/
theorem working_expiry_behavior_witness :
    ∃ s2, tickN 60 exampleState = some s2 ∧ s2.phase = Phase.Standing ∧
      s2.is_countdown = true ∧ s2.time_remaining = 300 ∧
      s2.events = [Event.standupShown] ∧
      s2.stats_file = exampleState.stats_file ∧
      s2.pending_sitdown_response = false := by
  obtain ⟨s2, h1, h2, h3, h4, h5, h6, h7⟩ :=
    working_expiry_behavior exampleState 60 (by decide) rfl rfl rfl rfl rfl
  exact ⟨s2, h1, h2, h3, h4, by simpa using h5, h6, h7⟩

/-- **C2 counterexample**: a Snoozed-phase state whose snooze expires
transitions to Standing (the 5-minute stand-up countdown, `time_remaining =
300`), not to Working with `time_remaining = work_duration = 60`: the
claim's transition target is false at this input. -/
theorem snooze_expiry_counterexample :
    (tick { exampleState with is_snooze := true, time_remaining := 1 }).map
        (fun s2 => (s2.phase, s2.time_remaining)) = some (Phase.Standing, 300) ∧
    Phase.Standing ≠ Phase.Working ∧ (300 : Int) ≠ 60 := by
  refine ⟨rfl, by decide, by decide⟩

/-- **C2 (amended)**: for every Snoozed-phase state (`is_snooze` true,
`is_countdown` false), when `time_remaining` expires under `tick` the
machine transitions to Standing with `time_remaining = 300`
(`countdown_duration`) and emits a fresh stand-up notification — it does
not re-enter Working. -/
theorem snooze_expiry_behavior (s : AppState)
    (hsn : s.is_snooze = true) (hc : s.is_countdown = false)
    (htr : s.time_remaining ≤ 1) (hr : s.timer_running = true)
    (hcd : s.countdown_duration = 300) :
    ∃ s2, tick s = some s2 ∧ s2.phase = Phase.Standing ∧ s2.time_remaining = 300 ∧
      s2.events = s.events ++ [Event.standupShown] ∧ s2.phase ≠ Phase.Working := by
  rw [tick_expire_work s htr hc]
  refine ⟨_, rfl, ?_, ?_, rfl, ?_⟩
  · show AppState.phase _ = Phase.Standing
    simp [AppState.phase, start_countdown, show_standup_notification, hr]
  · show ({ s with time_remaining := s.time_remaining - 1 } : AppState).countdown_duration = 300
    exact hcd
  · show AppState.phase _ ≠ Phase.Working
    simp [AppState.phase, start_countdown, show_standup_notification, hr]

/-- Witness for the amended C2. -/
theorem snooze_expiry_behavior_witness :
    ∃ s2, tick { exampleState with is_snooze := true, time_remaining := 1 } = some s2 ∧
      s2.phase = Phase.Standing ∧ s2.time_remaining = 300 ∧
      s2.events = [Event.standupShown] := by
  obtain ⟨s2, h1, h2, h3, h4, -⟩ :=
    snooze_expiry_behavior { exampleState with is_snooze := true, time_remaining := 1 }
      rfl rfl (by decide) rfl rfl
  exact ⟨s2, h1, h2, h3, by simpa using h4⟩


/-- **C3**: when a Standing-phase state's `time_remaining` reaches 0 under
`tick` (with the timer running and a well-formed stats document), the phase
returns to Working with `time_remaining = work_duration`; the persisted
streak is reset to 0 exactly when `pending_sitdown_response` was still
true, and is left unchanged by the transition when it was false. -/
theorem standing_expiry_spec (s : AppState)
    (hc : s.is_countdown = true)
    (htr : s.time_remaining ≤ 1)
    (hr : s.timer_running = true)
    (hwf : statsWF (load_stats s.stats_file) = true) :
    ∃ s2, tick s = some s2 ∧ s2.phase = Phase.Working ∧
      s2.time_remaining = s.work_duration ∧
      (s.pending_sitdown_response = true →
        (load_stats s2.stats_file).getKey "streak" = some (.i 0)) ∧
      (s.pending_sitdown_response = false →
        (load_stats s2.stats_file).getKey "streak" =
          (load_stats s.stats_file).getKey "streak") := by
  have hds : ("streak" : String) ≠ "days" := by decide
  have hsd : ("days" : String) ≠ "streak" := by decide
  obtain ⟨kvs, ds, hstats, hdays, hsk, hgb, hall⟩ := statsWF_destruct _ hwf
  rw [tick_expire_countdown s htr hc]
  by_cases hp : s.pending_sitdown_response
  · -- streak is zeroed, then the prompt is recorded
    have hdaysA : jLookup (jInsert kvs "streak" (Json.i 0)) "days" = some (.obj ds) := by
      rw [jLookup_jInsert_ne _ _ _ _ hds]
      exact hdays
    have hfn := record_prompt_eq_fn s.today (jInsert kvs "streak" (Json.i 0)) ds hdaysA
      (fun day hl => hall (s.today, day) (jLookup_mem _ _ _ hl))
    rw [restart_work_timer]
    simp only [Option.bind_eq_bind, Option.some_bind, hp, if_true]
    rw [hstats]
    simp only [Json.setKey, Option.some_bind, Option.pure_def]
    rw [show load_stats (some (Json.obj (jInsert kvs "streak" (Json.i 0)))) =
      Json.obj (jInsert kvs "streak" (Json.i 0)) from rfl]
    rw [hfn]
    simp only [Option.some_bind]
    refine ⟨_, rfl, ?_, rfl, fun _ => ?_, fun hcon => ?_⟩
    · simp [AppState.phase, show_sitdown_notification, hr]
    · show (load_stats (some (record_prompt_fn s.today (jInsert kvs "streak" (Json.i 0)) ds))).getKey
        "streak" = some (.i 0)
      rw [show load_stats (some (record_prompt_fn s.today (jInsert kvs "streak" (Json.i 0)) ds)) =
        record_prompt_fn s.today (jInsert kvs "streak" (Json.i 0)) ds from rfl]
      simp only [record_prompt_fn, Json.getKey]
      rw [jLookup_jInsert_ne _ _ _ _ hsd]
      exact jLookup_jInsert_self _ _ _
    · exact absurd hcon (by decide)
  · -- streak untouched
    have hfn := record_prompt_eq_fn s.today kvs ds hdays
      (fun day hl => hall (s.today, day) (jLookup_mem _ _ _ hl))
    have hp2 : s.pending_sitdown_response = false := by
      cases hpv : s.pending_sitdown_response
      · rfl
      · exact absurd hpv hp
    rw [restart_work_timer]
    simp only [Option.bind_eq_bind, Option.some_bind, hp2, Bool.false_eq_true, if_false,
      Option.pure_def]
    rw [show load_stats ({ s with time_remaining := s.time_remaining - 1 } : AppState).stats_file =
      load_stats s.stats_file from rfl, hstats]
    rw [hfn]
    simp only [Option.some_bind]
    refine ⟨_, rfl, ?_, rfl, fun hcon => ?_, fun _ => ?_⟩
    · simp [AppState.phase, show_sitdown_notification, hr]
    · exact hcon.elim
    · show (load_stats (some (record_prompt_fn s.today kvs ds))).getKey "streak" =
        (Json.obj kvs).getKey "streak"
      rw [show load_stats (some (record_prompt_fn s.today kvs ds)) =
        record_prompt_fn s.today kvs ds from rfl]
      simp only [record_prompt_fn, Json.getKey]
      rw [jLookup_jInsert_ne _ _ _ _ hsd]

/-- Witness for C3: a Standing state with `pending_sitdown_response` true
and streak 5 resets the persisted streak. -/
theorem standing_expiry_spec_witness :
    ∃ s2, tick
        { exampleState with
          is_countdown := true
          time_remaining := 1
          pending_sitdown_response := true
          stats_file := some (.obj [("days", .obj []), ("streak", .i 5)]) } = some s2 ∧
      s2.phase = Phase.Working ∧ s2.time_remaining = 60 ∧
      (load_stats s2.stats_file).getKey "streak" = some (.i 0) := by
  obtain ⟨s2, h1, h2, h3, h4, -⟩ :=
    standing_expiry_spec
      { exampleState with
        is_countdown := true
        time_remaining := 1
        pending_sitdown_response := true
        stats_file := some (.obj [("days", .obj []), ("streak", .i 5)]) }
      rfl (by decide) rfl (by rfl)
  exact ⟨s2, h1, h2, h3, h4 rfl⟩


/-! ## Field projections of the functional record forms -/

theorem record_completed_fn_skd (today : String) (kvs ds : List (String × Json)) :
    skD (record_completed_fn today kvs ds) = jIntD (jLookup kvs "streak") 0 + 1 := by
  have h1 : ("best_streak" : String) ≠ "streak" := by decide
  have h2 : ("days" : String) ≠ "streak" := by decide
  simp only [record_completed_fn, skD, Json.getKey]
  split_ifs <;>
    simp only [jLookup_jInsert_ne _ _ _ _ h1, jLookup_jInsert_ne _ _ _ _ h2,
      jLookup_jInsert_self, jIntD]

theorem record_completed_fn_gbest (today : String) (kvs ds : List (String × Json)) :
    gBestD (record_completed_fn today kvs ds) =
      (if jIntD (jLookup kvs "streak") 0 + 1 > jIntD (jLookup kvs "best_streak") 0
       then jIntD (jLookup kvs "streak") 0 + 1
       else jIntD (jLookup kvs "best_streak") 0) := by
  have h1 : ("streak" : String) ≠ "best_streak" := by decide
  have h2 : ("days" : String) ≠ "best_streak" := by decide
  simp only [record_completed_fn, gBestD, Json.getKey]
  split_ifs <;>
    simp only [jLookup_jInsert_self, jLookup_jInsert_ne _ _ _ _ h1,
      jLookup_jInsert_ne _ _ _ _ h2, jIntD]

theorem record_completed_fn_days (today : String) (kvs ds : List (String × Json)) :
    jDays (record_completed_fn today kvs ds) =
      jInsert ds today (.obj (
        let day1 := canonDayC (jLookup ds today)
        let day2 := jInsert day1 "completed" (.i (jIntD (jLookup day1 "completed") 0 + 1))
        if jIntD (jLookup kvs "streak") 0 + 1 > jIntD (jLookup day2 "best_streak") 0 then
          jInsert day2 "best_streak" (.i (jIntD (jLookup kvs "streak") 0 + 1))
        else day2)) := by
  have h1 : ("best_streak" : String) ≠ "days" := by decide
  have h2 : ("streak" : String) ≠ "days" := by decide
  simp only [record_completed_fn, jDays, Json.getKey]
  split_ifs <;>
    simp only [jLookup_jInsert_self, jLookup_jInsert_ne _ _ _ _ h1,
      jLookup_jInsert_ne _ _ _ _ h2, jInsert_jInsert_self]


theorem canonDayP_best (o : Option Json) :
    jLookup (canonDayP o) "best_streak" =
      (match o with
       | some (.obj dkvs) => jLookup dkvs "best_streak"
       | some _ => none
       | none => none) := by
  cases o with
  | none => rfl
  | some day =>
    cases day with
    | obj dkvs =>
      simp only [canonDayP]
      split_ifs <;>
        simp [jLookup_jInsert_ne _ _ _ _ (by decide : ("snoozed" : String) ≠ "best_streak")]
    | null => rfl
    | b v => rfl
    | i v => rfl
    | s v => rfl
    | arr v => rfl

theorem record_prompt_fn_gbest (today : String) (kvs ds : List (String × Json)) :
    gBestD (record_prompt_fn today kvs ds) = jIntD (jLookup kvs "best_streak") 0 := by
  simp only [record_prompt_fn, gBestD, Json.getKey,
    jLookup_jInsert_ne _ _ _ _ (by decide : ("days" : String) ≠ "best_streak")]

theorem record_prompt_fn_days (today : String) (kvs ds : List (String × Json)) :
    jDays (record_prompt_fn today kvs ds) =
      jInsert ds today (.obj (jInsert (canonDayP (jLookup ds today)) "prompts"
        (.i (jIntD (jLookup (canonDayP (jLookup ds today)) "prompts") 0 + 1)))) := by
  simp only [record_prompt_fn, jDays, Json.getKey, jLookup_jInsert_self]

theorem record_snoozed_fn_gbest (today : String) (kvs ds : List (String × Json)) :
    gBestD (record_snoozed_fn today kvs ds) = jIntD (jLookup kvs "best_streak") 0 := by
  simp only [record_snoozed_fn, gBestD, Json.getKey,
    jLookup_jInsert_ne _ _ _ _ (by decide : ("days" : String) ≠ "best_streak")]

theorem record_snoozed_fn_days (today : String) (kvs ds : List (String × Json)) :
    jDays (record_snoozed_fn today kvs ds) =
      jInsert ds today (.obj (jInsert (canonDayP (jLookup ds today)) "snoozed"
        (.i (jIntD (jLookup (canonDayP (jLookup ds today)) "snoozed") 0 + 1)))) := by
  simp only [record_snoozed_fn, jDays, Json.getKey, jLookup_jInsert_self]


/-- **C7**: on any well-formed statistics record, `record_completed`
increments the global streak by 1, increments the current day's completed
count by 1, raises the day's and the global `best_streak` to the new streak
exactly when it exceeds them (leaving them unchanged otherwise), and — at
the app level — sets `pending_sitdown_response` to false. -/
theorem record_completed_spec (today : String) (stats stats2 : Json)
    (hwf : statsWF stats = true)
    (happ : record_completed today stats = some stats2) :
    skD stats2 = skD stats + 1 ∧
    dayFieldD stats2 today "completed" = dayFieldD stats today "completed" + 1 ∧
    dayFieldD stats2 today "best_streak" =
      (if skD stats + 1 > dayFieldD stats today "best_streak" then skD stats + 1
       else dayFieldD stats today "best_streak") ∧
    gBestD stats2 = (if skD stats + 1 > gBestD stats then skD stats + 1 else gBestD stats) ∧
    (∀ a : AppState, a.today = today → a.stats_file = some stats →
      recordCompletedApp a =
        some { a with stats_file := some stats2, pending_sitdown_response := false }) := by
  have hcb : ("completed" : String) ≠ "best_streak" := by decide
  have hbc : ("best_streak" : String) ≠ "completed" := by decide
  obtain ⟨kvs, ds, rfl, hdays, hsk, hgb, hall⟩ := statsWF_destruct stats hwf
  have hday : ∀ day, jLookup ds today = some day → dayWF day = true :=
    fun day hl => hall _ (jLookup_mem _ _ _ hl)
  have heq := record_completed_eq_fn today kvs ds hdays hday hsk hgb
  rw [heq] at happ
  obtain rfl : record_completed_fn today kvs ds = stats2 := by
    cases happ
    rfl
  have hdof : dayOf (Json.obj kvs) today = jLookup ds today := by
    simp [dayOf, jDays, Json.getKey, hdays]
  have hskd0 : skD (Json.obj kvs) = jIntD (jLookup kvs "streak") 0 := rfl
  have hgbd0 : gBestD (Json.obj kvs) = jIntD (jLookup kvs "best_streak") 0 := rfl
  have hcomp0 : dayFieldD (Json.obj kvs) today "completed" =
      jIntD (jLookup (canonDayC (jLookup ds today)) "completed") 0 := by
    rw [dayFieldD, hdof, canonDayC_completed _ hday]
    rfl
  have hbest0 : dayFieldD (Json.obj kvs) today "best_streak" =
      jIntD (jLookup (canonDayC (jLookup ds today)) "best_streak") 0 := by
    rw [dayFieldD, hdof, canonDayC_best _ hday]
    rfl
  have hdof2 : dayOf (record_completed_fn today kvs ds) today =
      some (.obj (
        let day1 := canonDayC (jLookup ds today)
        let day2 := jInsert day1 "completed" (.i (jIntD (jLookup day1 "completed") 0 + 1))
        if jIntD (jLookup kvs "streak") 0 + 1 > jIntD (jLookup day2 "best_streak") 0 then
          jInsert day2 "best_streak" (.i (jIntD (jLookup kvs "streak") 0 + 1))
        else day2)) := by
    rw [dayOf, record_completed_fn_days]
    exact jLookup_jInsert_self _ _ _
  have hdb2 : jIntD (jLookup (jInsert (canonDayC (jLookup ds today)) "completed"
      (.i (jIntD (jLookup (canonDayC (jLookup ds today)) "completed") 0 + 1))) "best_streak") 0 =
      jIntD (jLookup (canonDayC (jLookup ds today)) "best_streak") 0 := by
    rw [jLookup_jInsert_ne _ _ _ _ hcb]
  refine ⟨?_, ?_, ?_, ?_, ?_⟩
  · rw [record_completed_fn_skd, hskd0]
  · rw [dayFieldD, hdof2, hcomp0]
    simp only [Option.some_bind, Json.getKey]
    split_ifs with hcnd
    · rw [jLookup_jInsert_ne _ _ _ _ hbc, jLookup_jInsert_self]
      simp [jIntD]
    · rw [jLookup_jInsert_self]
      simp [jIntD]
  · rw [dayFieldD, hdof2, hbest0, hskd0]
    simp only [Option.some_bind, Json.getKey, hdb2]
    split_ifs with hcnd
    · rw [jLookup_jInsert_self]
      simp [jIntD]
    · rw [jLookup_jInsert_ne _ _ _ _ hcb]
  · rw [record_completed_fn_gbest, hskd0, hgbd0]
  · intro a ha hb
    simp [recordCompletedApp, ha, hb, load_stats, heq]


theorem statsInv_iff (stats : Json) :
    statsInv stats = true ↔ ∀ p ∈ jDays stats, dayBestD p.2 ≤ gBestD stats := by
  simp [statsInv, List.all_eq_true, decide_eq_true_eq]

/-- **C8**: on any well-formed statistics record whose global `best_streak`
is non-negative and bounds every per-day `best_streak`, each of the four
stats operations (`record_prompt`, `record_completed`, `record_snoozed`,
`clear_streak`) preserves that bound. -/
theorem stats_ops_preserve_best_invariant (op : StatsOp) (today : String)
    (stats stats2 : Json)
    (hwf : statsWF stats = true)
    (hnn : 0 ≤ gBestD stats)
    (hinv : statsInv stats = true)
    (happ : op.apply today stats = some stats2) :
    statsInv stats2 = true := by
  have hpb : ("prompts" : String) ≠ "best_streak" := by decide
  have hsb : ("snoozed" : String) ≠ "best_streak" := by decide
  have hcb : ("completed" : String) ≠ "best_streak" := by decide
  have hstd : ("streak" : String) ≠ "days" := by decide
  have hstb : ("streak" : String) ≠ "best_streak" := by decide
  obtain ⟨kvs, ds, rfl, hdays, hsk, hgb, hall⟩ := statsWF_destruct stats hwf
  have hday : ∀ day, jLookup ds today = some day → dayWF day = true :=
    fun day hl => hall _ (jLookup_mem _ _ _ hl)
  have hjd : jDays (Json.obj kvs) = ds := by
    simp [jDays, Json.getKey, hdays]
  have hinv' : ∀ p ∈ ds, dayBestD p.2 ≤ gBestD (Json.obj kvs) := by
    intro p hp
    exact (statsInv_iff _).mp hinv p (by rw [hjd]; exact hp)
  have hdbP : jIntD (jLookup (canonDayP (jLookup ds today)) "best_streak") 0 ≤
      gBestD (Json.obj kvs) := by
    rw [canonDayP_best]
    cases ho : jLookup ds today with
    | none => exact hnn
    | some day =>
      cases day with
      | obj dkvs => exact hinv' (today, .obj dkvs) (jLookup_mem _ _ _ ho)
      | null => exact hnn
      | b v => exact hnn
      | i v => exact hnn
      | s v => exact hnn
      | arr v => exact hnn
  have hdbC : jIntD (jLookup (canonDayC (jLookup ds today)) "best_streak") 0 ≤
      gBestD (Json.obj kvs) := by
    rw [canonDayC_best _ hday]
    cases ho : jLookup ds today with
    | none => exact hnn
    | some day =>
      have : jIntD (day.getKey "best_streak") 0 ≤ gBestD (Json.obj kvs) :=
        hinv' (today, day) (jLookup_mem _ _ _ ho)
      simpa [jIntD] using this
  cases op with
  | clearStreak =>
    obtain rfl : Json.obj (jInsert kvs "streak" (.i 0)) = stats2 := by
      simp only [StatsOp.apply, clear_streak, Json.setKey] at happ
      cases happ
      rfl
    rw [statsInv_iff]
    intro p hp
    have hjd2 : jDays (Json.obj (jInsert kvs "streak" (Json.i 0))) = ds := by
      simp [jDays, Json.getKey, jLookup_jInsert_ne _ _ _ _ hstd, hdays]
    have hgb2 : gBestD (Json.obj (jInsert kvs "streak" (Json.i 0))) = gBestD (Json.obj kvs) := by
      simp [gBestD, Json.getKey, jLookup_jInsert_ne _ _ _ _ hstb]
    rw [hjd2] at hp
    rw [hgb2]
    exact hinv' p hp
  | prompt =>
    have heq := record_prompt_eq_fn today kvs ds hdays hday
    simp only [StatsOp.apply] at happ
    rw [heq] at happ
    obtain rfl : record_prompt_fn today kvs ds = stats2 := by
      cases happ
      rfl
    rw [statsInv_iff]
    intro p hp
    rw [record_prompt_fn_days] at hp
    have hgb2 : gBestD (record_prompt_fn today kvs ds) = gBestD (Json.obj kvs) := by
      rw [record_prompt_fn_gbest]
      rfl
    rw [hgb2]
    rcases mem_jInsert _ _ _ _ hp with hnew | hold
    · subst hnew
      show dayBestD (Json.obj (jInsert (canonDayP (jLookup ds today)) "prompts"
        (.i (jIntD (jLookup (canonDayP (jLookup ds today)) "prompts") 0 + 1)))) ≤ _
      rw [dayBestD, Json.getKey, jLookup_jInsert_ne _ _ _ _ hpb]
      exact hdbP
    · exact hinv' p hold
  | snoozed =>
    have heq := record_snoozed_eq_fn today kvs ds hdays hday
    simp only [StatsOp.apply] at happ
    rw [heq] at happ
    obtain rfl : record_snoozed_fn today kvs ds = stats2 := by
      cases happ
      rfl
    rw [statsInv_iff]
    intro p hp
    rw [record_snoozed_fn_days] at hp
    have hgb2 : gBestD (record_snoozed_fn today kvs ds) = gBestD (Json.obj kvs) := by
      rw [record_snoozed_fn_gbest]
      rfl
    rw [hgb2]
    rcases mem_jInsert _ _ _ _ hp with hnew | hold
    · subst hnew
      show dayBestD (Json.obj (jInsert (canonDayP (jLookup ds today)) "snoozed"
        (.i (jIntD (jLookup (canonDayP (jLookup ds today)) "snoozed") 0 + 1)))) ≤ _
      rw [dayBestD, Json.getKey, jLookup_jInsert_ne _ _ _ _ hsb]
      exact hdbP
    · exact hinv' p hold
  | completed =>
    have heq := record_completed_eq_fn today kvs ds hdays hday hsk hgb
    simp only [StatsOp.apply] at happ
    rw [heq] at happ
    obtain rfl : record_completed_fn today kvs ds = stats2 := by
      cases happ
      rfl
    rw [statsInv_iff]
    intro p hp
    rw [record_completed_fn_days] at hp
    rw [record_completed_fn_gbest]
    have hgb0 : jIntD (jLookup kvs "best_streak") 0 = gBestD (Json.obj kvs) := rfl
    rcases mem_jInsert _ _ _ _ hp with hnew | hold
    · subst hnew
      simp only []
      by_cases hcnd : jIntD (jLookup kvs "streak") 0 + 1 >
          jIntD (jLookup (jInsert (canonDayC (jLookup ds today)) "completed"
            (.i (jIntD (jLookup (canonDayC (jLookup ds today)) "completed") 0 + 1)))
            "best_streak") 0
      · rw [if_pos hcnd]
        show dayBestD (Json.obj (jInsert _ "best_streak"
          (.i (jIntD (jLookup kvs "streak") 0 + 1)))) ≤ _
        rw [dayBestD, Json.getKey, jLookup_jInsert_self]
        simp only [jIntD]
        split_ifs <;> omega
      · rw [if_neg hcnd]
        show dayBestD (Json.obj (jInsert (canonDayC (jLookup ds today)) "completed"
          (.i (jIntD (jLookup (canonDayC (jLookup ds today)) "completed") 0 + 1)))) ≤ _
        rw [dayBestD, Json.getKey, jLookup_jInsert_ne _ _ _ _ hcb]
        have hdbC2 : jIntD (jLookup (canonDayC (jLookup ds today)) "best_streak") 0 ≤
            jIntD (jLookup kvs "best_streak") 0 := hdbC
        split_ifs <;> omega
    · have h2 : dayBestD p.2 ≤ jIntD (jLookup kvs "best_streak") 0 := hinv' p hold
      split_ifs <;> omega


/-- Witness for C7 at the quoted scenario: existing `best_streak = 3`, new
streak 4; both the day's and the global best become 4. -/
theorem record_completed_spec_witness :
    statsWF statsC7 = true ∧
    skD statsC7after = skD statsC7 + 1 ∧
    dayFieldD statsC7after "2026-02-03" "completed" =
      dayFieldD statsC7 "2026-02-03" "completed" + 1 ∧
    dayFieldD statsC7after "2026-02-03" "best_streak" =
      (if skD statsC7 + 1 > dayFieldD statsC7 "2026-02-03" "best_streak" then skD statsC7 + 1
       else dayFieldD statsC7 "2026-02-03" "best_streak") ∧
    gBestD statsC7after =
      (if skD statsC7 + 1 > gBestD statsC7 then skD statsC7 + 1 else gBestD statsC7) := by
  obtain ⟨h1, h2, h3, h4, -⟩ :=
    record_completed_spec "2026-02-03" statsC7 statsC7after (by rfl) (by rfl)
  exact ⟨by rfl, h1, h2, h3, h4⟩

/-- Witness for C8: the invariant holds before and after `record_completed`
on the concrete document. -/
theorem stats_ops_preserve_best_invariant_witness :
    statsInv statsC7 = true ∧ statsInv statsC7after = true := by
  refine ⟨by rfl, ?_⟩
  refine stats_ops_preserve_best_invariant .completed "2026-02-03" statsC7 statsC7after
    (by rfl) ?_ (by rfl) (by rfl)
  rw [show gBestD statsC7 = (3 : Int) from rfl]
  omega

end StandUp
